import Mathlib

/-!
Aurora Font Library — verification of the container-decoding core.

Shallow embedding of the Aurora Font Library (TrueType/OpenType container
decoding): the endian-aware bounds-checked stream (`src/io/stream.rs`), the
header classifier and dispatch (`src/common/decode.rs`,
`src/optional/decode.rs`), the SNFT table-directory parser and checksum
validator (`src/common/snft.rs`), and the sink protocol
(`src/optional/sink.rs`, `src/optional/builtin.rs`).

Bytes are modelled as `Nat` values, buffers as `List Nat`, Rust `u32`
arithmetic as `Nat` arithmetic with explicit reduction modulo `4294967296`
at the points where the source wraps, and fallible operations as `Except`.
Operations taking the stream by mutable reference are modelled in
state-passing style, returning the updated stream next to the result;
operations taking it by shared reference return no stream, since they
cannot change it.
-/

namespace Aurora

/-- Byte order of multi-byte reads (`src/io/endian.rs`). -/
inductive ByteOrder where
  | bigEndian
  | littleEndian
deriving DecidableEq

/-- `FontDataStream` (`src/io/stream.rs`): a read-only byte buffer, a read
position and an endianness setting. -/
structure FontDataStream where
  data : List Nat
  position : Nat
  endianness : ByteOrder
deriving DecidableEq

/-- `FontDataStream::new`: position 0, big-endian. -/
def FontDataStream.new (data : List Nat) : FontDataStream :=
  ⟨data, 0, ByteOrder.bigEndian⟩

/-- `IoError` (`src/error.rs`). Tags are 4-byte lists. -/
inductive IoError where
  | outOfBounds (requested available : Nat)
  | seekBeforeStart
  | invalidOffset (offset : Nat)
  | invalidTag (tag : List Nat)
  | unsupportedVersion (version : Nat)
  | checksumMismatch (table : List Nat) (offset expected found : Nat)
  | truncatedTable (table : List Nat) (expectedLen foundLen : Nat)
  | invalidUtf8 (offset : Nat)
  | invalidGlyphIndex (index : Nat)
  | invalidData
deriving DecidableEq

/-- `Error` (`src/error.rs`). -/
inductive Error where
  | io (e : IoError)
  | invalidFormat
deriving DecidableEq

instance instDecEqExcept {ε α : Type} [DecidableEq ε] [DecidableEq α] :
    DecidableEq (Except ε α) := fun x y =>
  match x, y with
  | Except.ok a, Except.ok b =>
    if h : a = b then Decidable.isTrue (by rw [h]) else Decidable.isFalse (by simp [h])
  | Except.error a, Except.error b =>
    if h : a = b then Decidable.isTrue (by rw [h]) else Decidable.isFalse (by simp [h])
  | Except.ok _, Except.error _ => Decidable.isFalse (by simp)
  | Except.error _, Except.ok _ => Decidable.isFalse (by simp)

/-- `u16::from_be_bytes`. -/
def u16FromBeBytes (b0 b1 : Nat) : Nat := b0 * 256 + b1

/-- `u16::from_le_bytes`. -/
def u16FromLeBytes (b0 b1 : Nat) : Nat := b1 * 256 + b0

/-- `u32::from_be_bytes`. -/
def u32FromBeBytes (b0 b1 b2 b3 : Nat) : Nat :=
  ((b0 * 256 + b1) * 256 + b2) * 256 + b3

/-- `u32::from_le_bytes`. -/
def u32FromLeBytes (b0 b1 b2 b3 : Nat) : Nat :=
  ((b3 * 256 + b2) * 256 + b1) * 256 + b0

/-- `self.data.len().saturating_sub(self.position)` — `Nat` subtraction is
already saturating. -/
def FontDataStream.available (s : FontDataStream) : Nat :=
  s.data.length - s.position

/-- Byte at an index of the underlying buffer (`self.data[i]`; every use in
the source is guarded by a bounds check). -/
def FontDataStream.byteAt (s : FontDataStream) (i : Nat) : Nat :=
  s.data.getD i 0

/-- `FontDataStream::read_u8`. -/
def FontDataStream.read_u8 (s : FontDataStream) : Except Error Nat × FontDataStream :=
  if 1 ≤ s.available then
    (Except.ok (s.byteAt s.position), ⟨s.data, s.position + 1, s.endianness⟩)
  else
    (Except.error (Error.io (IoError.outOfBounds 1 s.available)), s)

/-- `FontDataStream::read_u16`. -/
def FontDataStream.read_u16 (s : FontDataStream) : Except Error Nat × FontDataStream :=
  if 2 ≤ s.available then
    (Except.ok (match s.endianness with
      | ByteOrder.bigEndian => u16FromBeBytes (s.byteAt s.position) (s.byteAt (s.position + 1))
      | ByteOrder.littleEndian => u16FromLeBytes (s.byteAt s.position) (s.byteAt (s.position + 1))),
     ⟨s.data, s.position + 2, s.endianness⟩)
  else
    (Except.error (Error.io (IoError.outOfBounds 2 s.available)), s)

/-- `FontDataStream::read_u32`. -/
def FontDataStream.read_u32 (s : FontDataStream) : Except Error Nat × FontDataStream :=
  if 4 ≤ s.available then
    (Except.ok (match s.endianness with
      | ByteOrder.bigEndian =>
          u32FromBeBytes (s.byteAt s.position) (s.byteAt (s.position + 1))
            (s.byteAt (s.position + 2)) (s.byteAt (s.position + 3))
      | ByteOrder.littleEndian =>
          u32FromLeBytes (s.byteAt s.position) (s.byteAt (s.position + 1))
            (s.byteAt (s.position + 2)) (s.byteAt (s.position + 3))),
     ⟨s.data, s.position + 4, s.endianness⟩)
  else
    (Except.error (Error.io (IoError.outOfBounds 4 s.available)), s)

/-- Reinterpretation of a byte as `i8` (`v as i8`). -/
def i8FromU8 (v : Nat) : Int := if v < 128 then (v : Int) else (v : Int) - 256

/-- Reinterpretation of a 16-bit value as `i16` (`v as i16`). -/
def i16FromU16 (v : Nat) : Int := if v < 32768 then (v : Int) else (v : Int) - 65536

/-- Reinterpretation of a 32-bit value as `i32` (`v as i32`). -/
def i32FromU32 (v : Nat) : Int :=
  if v < 2147483648 then (v : Int) else (v : Int) - 4294967296

/-- `FontDataStream::read_i8`. -/
def FontDataStream.read_i8 (s : FontDataStream) : Except Error Int × FontDataStream :=
  ((s.read_u8).1.map i8FromU8, (s.read_u8).2)

/-- `FontDataStream::read_i16`. -/
def FontDataStream.read_i16 (s : FontDataStream) : Except Error Int × FontDataStream :=
  ((s.read_u16).1.map i16FromU16, (s.read_u16).2)

/-- `FontDataStream::read_i32`. -/
def FontDataStream.read_i32 (s : FontDataStream) : Except Error Int × FontDataStream :=
  ((s.read_u32).1.map i32FromU32, (s.read_u32).2)

/-- `FontDataStream::skip`: advance, saturating at the buffer length. -/
def FontDataStream.skip (s : FontDataStream) (bytes : Nat) : FontDataStream :=
  ⟨s.data, min (s.position + bytes) s.data.length, s.endianness⟩

/-- `FontDataStream::reset`. -/
def FontDataStream.reset (s : FontDataStream) : FontDataStream :=
  ⟨s.data, 0, s.endianness⟩

/-- `FontDataStream::seek`: set position, clamped to the buffer length. -/
def FontDataStream.seek (s : FontDataStream) (pos : Nat) : FontDataStream :=
  ⟨s.data, min pos s.data.length, s.endianness⟩

/-- `FontDataStream::is_eof`. -/
def FontDataStream.is_eof (s : FontDataStream) : Bool :=
  decide (s.data.length ≤ s.position)

/-- `FontDataStream::read_bytes`. -/
def FontDataStream.read_bytes (s : FontDataStream) (length : Nat) :
    Except Error (List Nat) × FontDataStream :=
  if length ≤ s.available then
    (Except.ok ((s.data.drop s.position).take length),
     ⟨s.data, s.position + length, s.endianness⟩)
  else
    (Except.error (Error.io (IoError.outOfBounds length s.available)), s)

/-- `FontDataStream::peek_u8` (shared reference — no stream result). -/
def FontDataStream.peek_u8 (s : FontDataStream) : Except Error Nat :=
  match s.data[s.position]? with
  | some b => Except.ok b
  | none => Except.error (Error.io (IoError.outOfBounds 1 s.available))

/-- `FontDataStream::peek_bytes` (shared reference — no stream result). -/
def FontDataStream.peek_bytes (s : FontDataStream) (length : Nat) :
    Except Error (List Nat) :=
  if s.position + length ≤ s.data.length then
    Except.ok ((s.data.drop s.position).take length)
  else
    Except.error (Error.io (IoError.outOfBounds length s.available))

/-- `FontDataStream::read_at_u8`. -/
def FontDataStream.read_at_u8 (s : FontDataStream) (offset : Nat) : Except Error Nat :=
  match s.data[offset]? with
  | some b => Except.ok b
  | none => Except.error (Error.io (IoError.outOfBounds 1 (s.data.length - offset)))

/-- `FontDataStream::read_at_u16`. -/
def FontDataStream.read_at_u16 (s : FontDataStream) (offset : Nat) : Except Error Nat :=
  if offset + 2 ≤ s.data.length then
    Except.ok (match s.endianness with
      | ByteOrder.bigEndian => u16FromBeBytes (s.byteAt offset) (s.byteAt (offset + 1))
      | ByteOrder.littleEndian => u16FromLeBytes (s.byteAt offset) (s.byteAt (offset + 1)))
  else
    Except.error (Error.io (IoError.outOfBounds 2 (s.data.length - offset)))

/-- `FontDataStream::read_at_u32`. -/
def FontDataStream.read_at_u32 (s : FontDataStream) (offset : Nat) : Except Error Nat :=
  if offset + 4 ≤ s.data.length then
    Except.ok (match s.endianness with
      | ByteOrder.bigEndian =>
          u32FromBeBytes (s.byteAt offset) (s.byteAt (offset + 1))
            (s.byteAt (offset + 2)) (s.byteAt (offset + 3))
      | ByteOrder.littleEndian =>
          u32FromLeBytes (s.byteAt offset) (s.byteAt (offset + 1))
            (s.byteAt (offset + 2)) (s.byteAt (offset + 3)))
  else
    Except.error (Error.io (IoError.outOfBounds 4 (s.data.length - offset)))

/-- `FontDataStream::slice_at`. -/
def FontDataStream.slice_at (s : FontDataStream) (offset length : Nat) :
    Except Error (List Nat) :=
  if offset + length ≤ s.data.length then
    Except.ok ((s.data.drop offset).take length)
  else
    Except.error (Error.io (IoError.outOfBounds length (s.data.length - offset)))

/-- `FontDataStream::slice_range` over `start..stop`: rejects `start > stop`
with `InvalidOffset`; a range ending past the data reports `OutOfBounds`
with `requested = stop - start` (saturating) and the bytes available at
`start`. -/
def FontDataStream.slice_range (s : FontDataStream) (start stop : Nat) :
    Except Error (List Nat) :=
  if start > stop then
    Except.error (Error.io (IoError.invalidOffset start))
  else if stop ≤ s.data.length then
    Except.ok ((s.data.drop start).take (stop - start))
  else
    Except.error (Error.io (IoError.outOfBounds (stop - start) (s.data.length - start)))

/-- `slice_range` as seen through the `&mut` receiver of the callers that
hold the stream mutably: the borrow is shared, so the stream comes back
unchanged. -/
def FontDataStream.slice_rangeM (s : FontDataStream) (start stop : Nat) :
    Except Error (List Nat) × FontDataStream :=
  (s.slice_range start stop, s)

/-- `FontDataStream::read_tag`. -/
def FontDataStream.read_tag (s : FontDataStream) :
    Except Error (List Nat) × FontDataStream :=
  s.read_bytes 4

/-- `SnftTableHeader` (`src/common/snft.rs`). -/
structure SnftTableHeader where
  version : Nat
  num_tables : Nat
  search_range : Nat
  entry_selector : Nat
  range_shift : Nat
deriving DecidableEq

/-- `SnftTableEntry` (`src/common/snft.rs`): 4-byte tag, stored checksum,
offset and length into the original buffer. -/
structure SnftTableEntry where
  tag : List Nat
  checksum : Nat
  offset : Nat
  length : Nat
deriving DecidableEq

/-- `SnftTable` (`src/common/snft.rs`). -/
structure SnftTable where
  header : SnftTableHeader
  tables : List SnftTableEntry
deriving DecidableEq

/-- The range allowed for the first continuation byte after the given UTF-8
leading byte (the restricted ranges of `E0`, `ED`, `F0` and `F4`). -/
def utf8Cont1Range (b0 : Nat) : Nat × Nat :=
  if b0 = 0xE0 then (0xA0, 0xBF)
  else if b0 = 0xED then (0x80, 0x9F)
  else if b0 = 0xF0 then (0x90, 0xBF)
  else if b0 = 0xF4 then (0x80, 0x8F)
  else (0x80, 0xBF)

/-- Decode one UTF-8 sequence starting with leading byte `b0` followed by
`rest`: the decoded scalar value (or U+FFFD on invalid input, consuming the
maximal valid prefix) together with the bytes left over. -/
def utf8Step (b0 : Nat) (rest : List Nat) : Nat × List Nat :=
  if b0 ≤ 0x7F then (b0, rest)
  else if 0xC2 ≤ b0 && b0 ≤ 0xDF then
    match rest with
    | [] => (0xFFFD, [])
    | b1 :: rest2 =>
      if 0x80 ≤ b1 && b1 ≤ 0xBF then ((b0 - 0xC0) * 64 + (b1 - 0x80), rest2)
      else (0xFFFD, b1 :: rest2)
  else if 0xE0 ≤ b0 && b0 ≤ 0xEF then
    match rest with
    | [] => (0xFFFD, [])
    | b1 :: rest2 =>
      if (utf8Cont1Range b0).1 ≤ b1 && b1 ≤ (utf8Cont1Range b0).2 then
        match rest2 with
        | [] => (0xFFFD, [])
        | b2 :: rest3 =>
          if 0x80 ≤ b2 && b2 ≤ 0xBF then
            ((b0 - 0xE0) * 4096 + (b1 - 0x80) * 64 + (b2 - 0x80), rest3)
          else (0xFFFD, b2 :: rest3)
      else (0xFFFD, b1 :: rest2)
  else if 0xF0 ≤ b0 && b0 ≤ 0xF4 then
    match rest with
    | [] => (0xFFFD, [])
    | b1 :: rest2 =>
      if (utf8Cont1Range b0).1 ≤ b1 && b1 ≤ (utf8Cont1Range b0).2 then
        match rest2 with
        | [] => (0xFFFD, [])
        | b2 :: rest3 =>
          if 0x80 ≤ b2 && b2 ≤ 0xBF then
            match rest3 with
            | [] => (0xFFFD, [])
            | b3 :: rest4 =>
              if 0x80 ≤ b3 && b3 ≤ 0xBF then
                ((b0 - 0xF0) * 262144 + (b1 - 0x80) * 4096 +
                  (b2 - 0x80) * 64 + (b3 - 0x80), rest4)
              else (0xFFFD, b3 :: rest4)
          else (0xFFFD, b2 :: rest3)
      else (0xFFFD, b1 :: rest2)
  else (0xFFFD, rest)

/-- One decoding step never grows the leftover byte list. -/
theorem utf8Step_length (b0 : Nat) (rest : List Nat) :
    (utf8Step b0 rest).2.length ≤ rest.length := by
  unfold utf8Step
  repeat' split
  all_goals simp_all
  all_goals omega

/-- UTF-8 decoding with replacement of invalid sequences by U+FFFD,
modelling `String::from_utf8_lossy`; the result is the list of scalar
values of the decoded text. -/
def utf8Lossy : List Nat → List Nat
  | [] => []
  | b0 :: rest =>
    (utf8Step b0 rest).1 :: utf8Lossy (utf8Step b0 rest).2
termination_by l => l.length
decreasing_by
  simp only [List.length_cons]
  exact Nat.lt_succ_of_le (utf8Step_length _ _)

/-- `SnftTableEntry::tag_as_string`: the tag as lossily decoded text. -/
def SnftTableEntry.tag_as_string (e : SnftTableEntry) : List Nat :=
  utf8Lossy e.tag

/-- `SnftTable::get_table_by_tag`. -/
def SnftTable.get_table_by_tag (t : SnftTable) (tag : List Nat) : Option SnftTableEntry :=
  t.tables.find? (fun e => e.tag = tag)

/-- `SnftTable::list_table_tags`: one lossily decoded tag string per entry,
in stored order. -/
def SnftTable.list_table_tags (t : SnftTable) : List (List Nat) :=
  t.tables.map (fun e => utf8Lossy e.tag)

/-- `SnftTable::table_count`. -/
def SnftTable.table_count (t : SnftTable) : Nat :=
  t.tables.length

/-- `SnftTable::has_table`. -/
def SnftTable.has_table (t : SnftTable) (tag : List Nat) : Bool :=
  t.tables.any (fun e => e.tag = tag)

/-- A 4-byte chunk assembled exactly as in `compute_checksum`: the chunk
bytes fill the buffer from the front, missing trailing bytes stay zero, and
the buffer is read as a big-endian word. -/
def be_word (chunk : List Nat) : Nat :=
  u32FromBeBytes (chunk.getD 0 0) (chunk.getD 1 0) (chunk.getD 2 0) (chunk.getD 3 0)

/-- The accumulation loop of `SnftTableEntry::compute_checksum` (and of the
default path of `compute_table_checksum`): fold over the `chunks(4)` of the
data with `u32::wrapping_add`; the final chunk may be 1 to 3 bytes and its
missing trailing bytes stay zero in the word buffer. -/
def checksum_words : List Nat → Nat → Nat
  | [], sum => sum
  | [b0], sum => (sum + be_word [b0]) % 4294967296
  | [b0, b1], sum => (sum + be_word [b0, b1]) % 4294967296
  | [b0, b1, b2], sum => (sum + be_word [b0, b1, b2]) % 4294967296
  | b0 :: b1 :: b2 :: b3 :: rest, sum =>
      checksum_words rest ((sum + be_word [b0, b1, b2, b3]) % 4294967296)

/-- `SnftTableEntry::compute_checksum`. -/
def SnftTableEntry.compute_checksum (_e : SnftTableEntry) (data : List Nat) : Nat :=
  checksum_words data 0

/-- The `head` tag, the bytes 0x68 0x65 0x61 0x64. -/
def HEAD_TAG : List Nat := [0x68, 0x65, 0x61, 0x64]

/-- One byte of the `head` path of `compute_table_checksum`: bytes at
indices 8..12 read as zero, indices past the end read as zero. -/
def head_byte (data : List Nat) (idx : Nat) : Nat :=
  if idx < data.length then
    if 8 ≤ idx ∧ idx < 12 then 0 else data.getD idx 0
  else 0

/-- One word of the `head` path of `compute_table_checksum`. -/
def head_word (data : List Nat) (i : Nat) : Nat :=
  u32FromBeBytes (head_byte data i) (head_byte data (i + 1))
    (head_byte data (i + 2)) (head_byte data (i + 3))

/-- The `while i < len` loop of the `head` path of
`compute_table_checksum`. -/
def head_checksum_words (data : List Nat) : Nat → Nat → Nat
  | i, sum =>
    if i < data.length then
      head_checksum_words data (i + 4) ((sum + head_word data i) % 4294967296)
    else sum
termination_by i _ => data.length - i
decreasing_by omega

/-- `compute_table_checksum` (`src/common/snft.rs`): the `head` table sums
with bytes 8..12 of its own data read as zero; every other table sums its
bytes verbatim. -/
def compute_table_checksum (table : SnftTableEntry) (data : List Nat) : Nat :=
  if table.tag = HEAD_TAG then head_checksum_words data 0 0
  else checksum_words data 0

/-- The slice-extraction loop of `validate_snft_tables`: for each entry,
`stream.slice_range(offset as usize..(offset + length) as usize)` — the
end is a wrapping `u32` addition. -/
def slice_tables :
    List SnftTableEntry → FontDataStream →
      Except Error (List (SnftTableEntry × List Nat)) × FontDataStream
  | [], s => (Except.ok [], s)
  | t :: rest, s =>
    match s.slice_rangeM t.offset ((t.offset + t.length) % 4294967296) with
    | (Except.error e, s1) => (Except.error e, s1)
    | (Except.ok sl, s1) =>
      match slice_tables rest s1 with
      | (Except.error e, s2) => (Except.error e, s2)
      | (Except.ok l, s2) => (Except.ok ((t, sl) :: l), s2)

/-- The sequential comparison loop of `validate_snft_tables`: first entry
whose recomputed checksum differs from the stored one yields
`ChecksumMismatch` with the tag, offset, stored (expected) and computed
(found) values. -/
def check_slices : List (SnftTableEntry × List Nat) → Except Error Unit
  | [] => Except.ok ()
  | (table, data) :: rest =>
    if compute_table_checksum table data ≠ table.checksum then
      Except.error (Error.io (IoError.checksumMismatch table.tag table.offset
        table.checksum (compute_table_checksum table data)))
    else check_slices rest

/-- `validate_snft_tables` (`src/common/snft.rs`, sequential path): extract
all slices first, then compare checksums in directory order. -/
def validate_snft_tables (tables : List SnftTableEntry) (stream : FontDataStream) :
    Except Error Unit × FontDataStream :=
  match slice_tables tables stream with
  | (Except.error e, s1) => (Except.error e, s1)
  | (Except.ok slices, s1) => (check_slices slices, s1)

/-- `SnftTable::validate_checksums`: validates a clone of the entry list
against the stream. -/
def SnftTable.validate_checksums (t : SnftTable) (stream : FontDataStream) :
    Except Error Unit × FontDataStream :=
  validate_snft_tables t.tables stream

/-- `read_snft_header` (`src/common/snft.rs`): version, table count, search
range, entry selector, range shift, in that order. -/
def read_snft_header (s0 : FontDataStream) :
    Except Error SnftTableHeader × FontDataStream :=
  match s0.read_u32 with
  | (Except.error e, s) => (Except.error e, s)
  | (Except.ok sfnt_version, s1) =>
    match s1.read_u16 with
    | (Except.error e, s) => (Except.error e, s)
    | (Except.ok num_tables, s2) =>
      match s2.read_u16 with
      | (Except.error e, s) => (Except.error e, s)
      | (Except.ok search_range, s3) =>
        match s3.read_u16 with
        | (Except.error e, s) => (Except.error e, s)
        | (Except.ok entry_selector, s4) =>
          match s4.read_u16 with
          | (Except.error e, s) => (Except.error e, s)
          | (Except.ok range_shift, s5) =>
            (Except.ok ⟨sfnt_version, num_tables, search_range, entry_selector, range_shift⟩, s5)

/-- `read_snft_table_entry` (`src/common/snft.rs`): 4-byte tag, checksum,
offset, length, in that order. -/
def read_snft_table_entry (s0 : FontDataStream) :
    Except Error SnftTableEntry × FontDataStream :=
  match s0.read_bytes 4 with
  | (Except.error e, s) => (Except.error e, s)
  | (Except.ok tag_bytes, s1) =>
    match s1.read_u32 with
    | (Except.error e, s) => (Except.error e, s)
    | (Except.ok checksum, s2) =>
      match s2.read_u32 with
      | (Except.error e, s) => (Except.error e, s)
      | (Except.ok offset, s3) =>
        match s3.read_u32 with
        | (Except.error e, s) => (Except.error e, s)
        | (Except.ok length, s4) =>
          (Except.ok ⟨[tag_bytes.getD 0 0, tag_bytes.getD 1 0, tag_bytes.getD 2 0,
            tag_bytes.getD 3 0], checksum, offset, length⟩, s4)

/-- The `for _ in 0..header.num_tables` loop of `read_snft`: read the given
number of records, appending in read order; the first failing record read
aborts the whole loop. -/
def read_snft_entries :
    Nat → FontDataStream → Except Error (List SnftTableEntry) × FontDataStream
  | 0, s => (Except.ok [], s)
  | n + 1, s =>
    match read_snft_table_entry s with
    | (Except.error e, s1) => (Except.error e, s1)
    | (Except.ok t, s1) =>
      match read_snft_entries n s1 with
      | (Except.error e, s2) => (Except.error e, s2)
      | (Except.ok ts, s2) => (Except.ok (t :: ts), s2)

/-- `read_snft` (`src/common/snft.rs`): header, then `num_tables` records. -/
def read_snft (data : FontDataStream) : Except Error SnftTable × FontDataStream :=
  match read_snft_header data with
  | (Except.error e, s1) => (Except.error e, s1)
  | (Except.ok header, s1) =>
    match read_snft_entries header.num_tables s1 with
    | (Except.error e, s2) => (Except.error e, s2)
    | (Except.ok tables, s2) => (Except.ok ⟨header, tables⟩, s2)

/-- `FontFileHeader` (`src/common/decode.rs`). -/
inductive FontFileHeader where
  | SFNT
  | TRUE
  | TYP1
  | OTTO
  | WOFF
  | WOF2
  | SVG
  | Unknown
deriving DecidableEq

/-- `From<u32> for FontFileHeader` (`src/common/decode.rs`). -/
def fontFileHeaderFromU32 : Nat → FontFileHeader
  | 0x00010000 => FontFileHeader.SFNT
  | 0x74727565 => FontFileHeader.TRUE
  | 0x74797031 => FontFileHeader.TYP1
  | 0x4F54544F => FontFileHeader.OTTO
  | 0x774F4646 => FontFileHeader.WOFF
  | 0x774F4632 => FontFileHeader.WOF2
  | 0x73766720 => FontFileHeader.SVG
  | _ => FontFileHeader.Unknown

/-- `decode_font_type` (`src/common/decode.rs`): classify the big-endian
`u32` of the first 4 bytes without moving the position (the only stream
access is the shared-reference `slice_range(0..4)`). -/
def decode_font_type (s : FontDataStream) : Except Error FontFileHeader :=
  match s.slice_range 0 4 with
  | Except.error e => Except.error e
  | Except.ok bytes =>
    Except.ok (fontFileHeaderFromU32
      (u32FromBeBytes (bytes.getD 0 0) (bytes.getD 1 0) (bytes.getD 2 0) (bytes.getD 3 0)))

/-- `decode_font_otf` (`src/common/decode.rs`). -/
def decode_font_otf (s : FontDataStream) : Except Error SnftTable × FontDataStream :=
  read_snft s

/-- `decode_font_ttf` (`src/common/decode.rs`). -/
def decode_font_ttf (s : FontDataStream) : Except Error SnftTable × FontDataStream :=
  read_snft s

/-- `decode_font_woff` (`src/common/decode.rs`): not implemented. -/
def decode_font_woff (s : FontDataStream) : Except Error SnftTable × FontDataStream :=
  (Except.error Error.invalidFormat, s)

/-- `decode_font_woff2` (`src/common/decode.rs`): not implemented. -/
def decode_font_woff2 (s : FontDataStream) : Except Error SnftTable × FontDataStream :=
  (Except.error Error.invalidFormat, s)

/-- `decode_font_svg` (`src/common/decode.rs`): not implemented. -/
def decode_font_svg (s : FontDataStream) : Except Error SnftTable × FontDataStream :=
  (Except.error Error.invalidFormat, s)

/-- `decode_font_file` (`src/optional/decode.rs`): classify, then dispatch
to the per-format decoder; unknown signatures yield `InvalidFormat`. -/
def decode_font_file (s : FontDataStream) : Except Error SnftTable × FontDataStream :=
  match decode_font_type s with
  | Except.error e => (Except.error e, s)
  | Except.ok FontFileHeader.SFNT => decode_font_ttf s
  | Except.ok FontFileHeader.TRUE => decode_font_ttf s
  | Except.ok FontFileHeader.TYP1 => decode_font_otf s
  | Except.ok FontFileHeader.OTTO => decode_font_otf s
  | Except.ok FontFileHeader.WOFF => decode_font_woff s
  | Except.ok FontFileHeader.WOF2 => decode_font_woff2 s
  | Except.ok FontFileHeader.SVG => decode_font_svg s
  | Except.ok FontFileHeader.Unknown => (Except.error Error.invalidFormat, s)

/-- `FontSink` (`src/optional/sink.rs`): a consumer with state `σ`,
`consume_snft` over that state, and `finish` producing the output; sink
errors are already converted into `Error`. -/
structure FontSink (σ Output : Type) where
  consume_snft : σ → SnftTable → Except Error σ
  finish : σ → Except Error Output

/-- Modelled from the spec: `extract_snft_tables_from_stream` is referenced
by `decode_into` but has no definition anywhere under the sources; the spec
says the decode pipeline for directory-bearing signatures parses the table
directory, so it is modelled as the table-directory parse `read_snft`. -/
def extract_snft_tables_from_stream (s : FontDataStream) :
    Except Error SnftTable × FontDataStream :=
  read_snft s

/-- `decode_into` (`src/optional/decode.rs`): classify; the
SFNT/TRUE/TYP1/OTTO arm and the catch-all arm both extract the directory
and feed it to the sink; WOFF/WOF2 return `InvalidFormat` early; the SVG
arm slices the whole buffer (the `consume_svg` call is commented out in
the source) and, like the other non-returning arms, falls through to
`sink.finish`. -/
def decode_into {σ Output : Type} (sink : FontSink σ Output) (stream : FontDataStream)
    (st : σ) : Except Error Output × FontDataStream :=
  match decode_font_type stream with
  | Except.error e => (Except.error e, stream)
  | Except.ok h =>
    match h with
    | FontFileHeader.WOFF => (Except.error Error.invalidFormat, stream)
    | FontFileHeader.WOF2 => (Except.error Error.invalidFormat, stream)
    | FontFileHeader.SVG =>
      match stream.slice_range 0 stream.data.length with
      | Except.error e => (Except.error e, stream)
      | Except.ok _ =>
        match sink.finish st with
        | Except.error e => (Except.error e, stream)
        | Except.ok out => (Except.ok out, stream)
    | _ =>
      match extract_snft_tables_from_stream stream with
      | (Except.error e, s1) => (Except.error e, s1)
      | (Except.ok snft, s1) =>
        match sink.consume_snft st snft with
        | Except.error e => (Except.error e, s1)
        | Except.ok st1 =>
          match sink.finish st1 with
          | Except.error e => (Except.error e, s1)
          | Except.ok out => (Except.ok out, s1)

/-- `Font` (`src/optional/builtin.rs`): the built-in sink state. -/
structure Font where
  snft_tables : List SnftTableEntry
  svg_data : Option (List Nat)
deriving DecidableEq

/-- `Font::new`. -/
def Font.new : Font := ⟨[], Option.none⟩

/-- The `FontSink` implementation of `Font` (`src/optional/builtin.rs`):
`consume_snft` extends the stored entry list; `finish` returns the font. -/
def fontSink : FontSink Font Font :=
  ⟨fun f snft => Except.ok ⟨f.snft_tables ++ snft.tables, f.svg_data⟩,
   fun f => Except.ok f⟩

/-! ## Basic lemmas about the stream operations -/

/-- Characterization of a successful `read_u16`. -/
theorem read_u16_ok_inv {s s2 : FontDataStream} {v : Nat}
    (h : s.read_u16 = (Except.ok v, s2)) :
    s2 = ⟨s.data, s.position + 2, s.endianness⟩ ∧ s.position + 2 ≤ s.data.length := by
  unfold FontDataStream.read_u16 at h
  split at h
  · next hc =>
    simp only [Prod.mk.injEq, Except.ok.injEq] at h
    refine ⟨h.2.symm, ?_⟩
    unfold FontDataStream.available at hc
    omega
  · simp only [Prod.mk.injEq] at h
    exact absurd h.1 (by simp)

/-- Characterization of a successful `read_u32`. -/
theorem read_u32_ok_inv {s s2 : FontDataStream} {v : Nat}
    (h : s.read_u32 = (Except.ok v, s2)) :
    s2 = ⟨s.data, s.position + 4, s.endianness⟩ ∧ s.position + 4 ≤ s.data.length := by
  unfold FontDataStream.read_u32 at h
  split at h
  · next hc =>
    simp only [Prod.mk.injEq, Except.ok.injEq] at h
    refine ⟨h.2.symm, ?_⟩
    unfold FontDataStream.available at hc
    omega
  · simp only [Prod.mk.injEq] at h
    exact absurd h.1 (by simp)

/-- A `read_u16` with at least 2 available bytes succeeds. -/
theorem read_u16_ok_exists (s : FontDataStream) (h : 2 ≤ s.available) :
    ∃ v, s.read_u16 = (Except.ok v, ⟨s.data, s.position + 2, s.endianness⟩) := by
  unfold FontDataStream.read_u16
  rw [if_pos h]
  exact ⟨_, rfl⟩

/-- A `read_u32` with at least 4 available bytes succeeds. -/
theorem read_u32_ok_exists (s : FontDataStream) (h : 4 ≤ s.available) :
    ∃ v, s.read_u32 = (Except.ok v, ⟨s.data, s.position + 4, s.endianness⟩) := by
  unfold FontDataStream.read_u32
  rw [if_pos h]
  exact ⟨_, rfl⟩

/-- A `read_u32` with fewer than 4 available bytes fails, leaving the
stream untouched. -/
theorem read_u32_err (s : FontDataStream) (h : s.available < 4) :
    s.read_u32 = (Except.error (Error.io (IoError.outOfBounds 4 s.available)), s) := by
  unfold FontDataStream.read_u32
  rw [if_neg (by omega)]

/-- A `read_bytes` with enough available bytes succeeds. -/
theorem read_bytes_ok (s : FontDataStream) (n : Nat) (h : n ≤ s.available) :
    s.read_bytes n = (Except.ok ((s.data.drop s.position).take n),
      ⟨s.data, s.position + n, s.endianness⟩) := by
  unfold FontDataStream.read_bytes
  rw [if_pos h]

/-- A `read_bytes` with too few available bytes fails, leaving the stream
untouched. -/
theorem read_bytes_err (s : FontDataStream) (n : Nat) (h : s.available < n) :
    s.read_bytes n = (Except.error (Error.io (IoError.outOfBounds n s.available)), s) := by
  unfold FontDataStream.read_bytes
  rw [if_neg (by omega)]

/-- `slice_range` on a well-ordered in-bounds range. -/
theorem slice_range_ok (s : FontDataStream) (a b : Nat) (hab : a ≤ b)
    (hb : b ≤ s.data.length) :
    s.slice_range a b = Except.ok ((s.data.drop a).take (b - a)) := by
  unfold FontDataStream.slice_range
  rw [if_neg (by omega), if_pos hb]

/-- `slice_range` on a well-ordered range ending past the buffer. -/
theorem slice_range_oob (s : FontDataStream) (a b : Nat) (hab : a ≤ b)
    (hb : s.data.length < b) :
    s.slice_range a b =
      Except.error (Error.io (IoError.outOfBounds (b - a) (s.data.length - a))) := by
  unfold FontDataStream.slice_range
  rw [if_neg (by omega), if_neg (by omega)]

/-- `slice_range` on an inverted range. -/
theorem slice_range_inverted (s : FontDataStream) (a b : Nat) (hab : b < a) :
    s.slice_range a b = Except.error (Error.io (IoError.invalidOffset a)) := by
  unfold FontDataStream.slice_range
  rw [if_pos (by omega)]

/-! ## Lemmas about the directory parser -/

/-- A record read with at least 16 available bytes succeeds and advances
the position by exactly 16. -/
theorem read_entry_ok : ∀ (s : FontDataStream), 16 ≤ s.available →
    ∃ t, read_snft_table_entry s = (Except.ok t, ⟨s.data, s.position + 16, s.endianness⟩) := by
  rintro ⟨data, pos, endian⟩ h
  unfold FontDataStream.available at h
  simp only at h
  unfold read_snft_table_entry
  rw [read_bytes_ok _ 4 (by unfold FontDataStream.available; simp; omega)]
  simp only
  obtain ⟨v1, hv1⟩ :=
    read_u32_ok_exists ⟨data, pos + 4, endian⟩ (by unfold FontDataStream.available; simp; omega)
  simp only at hv1
  rw [hv1]
  simp only
  obtain ⟨v2, hv2⟩ :=
    read_u32_ok_exists ⟨data, pos + 4 + 4, endian⟩ (by unfold FontDataStream.available; simp; omega)
  simp only at hv2
  rw [hv2]
  simp only
  obtain ⟨v3, hv3⟩ :=
    read_u32_ok_exists ⟨data, pos + 4 + 4 + 4, endian⟩
      (by unfold FontDataStream.available; simp; omega)
  simp only at hv3
  rw [hv3]
  simp only
  have harith : pos + 4 + 4 + 4 + 4 = pos + 16 := by omega
  rw [harith]
  exact ⟨_, rfl⟩

/-- A record read with fewer than 16 available bytes fails at its first
4-byte sub-read that does not fit, with requested 4 and the remaining
available bytes, which at that point are the available bytes modulo 4. -/
theorem read_entry_err : ∀ (s : FontDataStream), s.position ≤ s.data.length →
    s.available < 16 →
    ∃ s1, read_snft_table_entry s =
      (Except.error (Error.io (IoError.outOfBounds 4 (s.available % 4))), s1) := by
  rintro ⟨data, pos, endian⟩ hp h
  unfold FontDataStream.available at h ⊢
  simp only at h ⊢
  unfold read_snft_table_entry
  by_cases h1 : data.length - pos < 4
  · rw [read_bytes_err _ 4 (by unfold FontDataStream.available; simp; omega)]
    simp only
    unfold FontDataStream.available
    simp only
    rw [show (data.length - pos) % 4 = data.length - pos from by omega]
    exact ⟨_, rfl⟩
  · rw [read_bytes_ok _ 4 (by unfold FontDataStream.available; simp; omega)]
    simp only
    by_cases h2 : data.length - pos < 8
    · rw [read_u32_err ⟨data, pos + 4, endian⟩ (by unfold FontDataStream.available; simp; omega)]
      simp only
      unfold FontDataStream.available
      simp only
      rw [show (data.length - pos) % 4 = data.length - (pos + 4) from by omega]
      exact ⟨_, rfl⟩
    · obtain ⟨v1, hv1⟩ :=
        read_u32_ok_exists ⟨data, pos + 4, endian⟩
          (by unfold FontDataStream.available; simp; omega)
      simp only at hv1
      rw [hv1]
      simp only
      by_cases h3 : data.length - pos < 12
      · rw [read_u32_err ⟨data, pos + 4 + 4, endian⟩
          (by unfold FontDataStream.available; simp; omega)]
        simp only
        unfold FontDataStream.available
        simp only
        rw [show (data.length - pos) % 4 = data.length - (pos + 4 + 4) from by omega]
        exact ⟨_, rfl⟩
      · obtain ⟨v2, hv2⟩ :=
          read_u32_ok_exists ⟨data, pos + 4 + 4, endian⟩
            (by unfold FontDataStream.available; simp; omega)
        simp only at hv2
        rw [hv2]
        simp only
        rw [read_u32_err ⟨data, pos + 4 + 4 + 4, endian⟩
          (by unfold FontDataStream.available; simp; omega)]
        simp only
        unfold FontDataStream.available
        simp only
        rw [show (data.length - pos) % 4 = data.length - (pos + 4 + 4 + 4) from by omega]
        exact ⟨_, rfl⟩

/-- A successful record-loop run returns exactly as many records as asked
for. -/
theorem read_snft_entries_len :
    ∀ (n : Nat) (s : FontDataStream) (l : List SnftTableEntry) (s2 : FontDataStream),
      read_snft_entries n s = (Except.ok l, s2) → l.length = n := by
  intro n
  induction n with
  | zero =>
    intro s l s2 h
    unfold read_snft_entries at h
    simp only [Prod.mk.injEq, Except.ok.injEq] at h
    rw [← h.1]
    rfl
  | succ n ih =>
    intro s l s2 h
    unfold read_snft_entries at h
    rcases he : read_snft_table_entry s with ⟨r, s1⟩
    rw [he] at h
    rcases r with e | t
    · simp at h
    · simp only at h
      rcases hr : read_snft_entries n s1 with ⟨r2, s3⟩
      rw [hr] at h
      rcases r2 with e2 | ts
      · simp at h
      · simp only [Prod.mk.injEq, Except.ok.injEq] at h
        rw [← h.1]
        simp [ih s1 ts s3 hr]

/-- The record loop on a buffer with too few bytes left for its record
count fails with the out-of-bounds error of the first sub-read that does
not fit. -/
theorem read_snft_entries_err :
    ∀ (n : Nat) (s : FontDataStream), s.position ≤ s.data.length →
      s.data.length < s.position + 16 * n →
      (read_snft_entries n s).1 =
        Except.error (Error.io (IoError.outOfBounds 4 ((s.data.length - s.position) % 4))) := by
  intro n
  induction n with
  | zero =>
    intro s hp h
    exact absurd h (by omega)
  | succ n ih =>
    intro s hp h
    by_cases hc : 16 ≤ s.available
    · obtain ⟨t, ht⟩ := read_entry_ok s hc
      unfold read_snft_entries
      rw [ht]
      simp only
      rcases hr : read_snft_entries n ⟨s.data, s.position + 16, s.endianness⟩ with ⟨r2, s3⟩
      have hih := ih ⟨s.data, s.position + 16, s.endianness⟩
        (by simp only; unfold FontDataStream.available at hc; omega)
        (by simp only; omega)
      rw [hr] at hih
      simp only at hih
      subst hih
      simp only
      unfold FontDataStream.available at hc
      rw [show (s.data.length - (s.position + 16)) % 4 = (s.data.length - s.position) % 4 from
        by omega]
    · obtain ⟨s1, hs1⟩ := read_entry_err s hp (by omega)
      unfold read_snft_entries
      rw [hs1]
      simp only
      unfold FontDataStream.available
      rfl

/-- A successful header read advances the position by exactly 12, changes
nothing else, and certifies that those 12 bytes were in bounds. -/
theorem read_snft_header_ok_inv :
    ∀ (s s2 : FontDataStream) (hd : SnftTableHeader),
      read_snft_header s = (Except.ok hd, s2) →
      s2 = ⟨s.data, s.position + 12, s.endianness⟩ ∧ s.position + 12 ≤ s.data.length := by
  intro s s2 hd h
  unfold read_snft_header at h
  rcases h1 : s.read_u32 with ⟨r1, t1⟩
  rw [h1] at h
  rcases r1 with e | v1
  · simp at h
  · simp only at h
    obtain ⟨ht1, hlen1⟩ := read_u32_ok_inv h1
    rcases h2 : t1.read_u16 with ⟨r2, t2⟩
    rw [h2] at h
    rcases r2 with e | v2
    · simp at h
    · simp only at h
      obtain ⟨ht2, hlen2⟩ := read_u16_ok_inv h2
      rcases h3 : t2.read_u16 with ⟨r3, t3⟩
      rw [h3] at h
      rcases r3 with e | v3
      · simp at h
      · simp only at h
        obtain ⟨ht3, hlen3⟩ := read_u16_ok_inv h3
        rcases h4 : t3.read_u16 with ⟨r4, t4⟩
        rw [h4] at h
        rcases r4 with e | v4
        · simp at h
        · simp only at h
          obtain ⟨ht4, hlen4⟩ := read_u16_ok_inv h4
          rcases h5 : t4.read_u16 with ⟨r5, t5⟩
          rw [h5] at h
          rcases r5 with e | v5
          · simp at h
          · simp only [Prod.mk.injEq, Except.ok.injEq] at h
            obtain ⟨ht5, hlen5⟩ := read_u16_ok_inv h5
            subst ht1
            subst ht2
            subst ht3
            subst ht4
            subst ht5
            simp only at hlen2 hlen3 hlen4 hlen5
            have hpos : s.position + 4 + 2 + 2 + 2 + 2 = s.position + 12 := by omega
            rw [hpos] at h
            exact ⟨h.2.symm, by omega⟩

/-- Claim C6: a directory whose header-declared table count requires record
bytes beyond the end of the buffer makes `read_snft` fail, with the
out-of-bounds error of the first 4-byte sub-read past the end: requested 4
bytes against the bytes then remaining (the post-header remainder modulo
4), and no record list is returned. -/
theorem read_snft_truncated_fails :
    ∀ (s s2 : FontDataStream) (hd : SnftTableHeader),
      read_snft_header s = (Except.ok hd, s2) →
      s.data.length < s2.position + 16 * hd.num_tables →
      (read_snft s).1 =
        Except.error (Error.io (IoError.outOfBounds 4 ((s.data.length - s2.position) % 4))) := by
  intro s s2 hd hh hlt
  obtain ⟨hs2, hle⟩ := read_snft_header_ok_inv s s2 hd hh
  unfold read_snft
  rw [hh]
  simp only
  rcases hr : read_snft_entries hd.num_tables s2 with ⟨r, s3⟩
  have hih := read_snft_entries_err hd.num_tables s2
    (by rw [hs2]; simpa using hle)
    (by rw [hs2] at hlt ⊢; simpa using hlt)
  rw [hr] at hih
  simp only at hih
  subst hih
  simp only
  rw [hs2]

/-- Claim C6 witness: a 12-byte buffer declaring one table record makes
`read_snft` fail with requested 4, available 0. -/
theorem read_snft_truncated_fails_witness :
    (read_snft (FontDataStream.new [0, 0, 0, 0, 0, 1, 0, 0, 0, 0, 0, 0])).1 =
      Except.error (Error.io (IoError.outOfBounds 4 0)) :=
  read_snft_truncated_fails (FontDataStream.new [0, 0, 0, 0, 0, 1, 0, 0, 0, 0, 0, 0])
    ⟨[0, 0, 0, 0, 0, 1, 0, 0, 0, 0, 0, 0], 12, ByteOrder.bigEndian⟩
    ⟨0, 1, 0, 0, 0⟩ (by decide) (by decide)

/-- Claim C8: a successful `read_snft` yields a directory whose derived tag
strings are the per-record lossily decoded tags in record (file) order —
duplicates included, nothing dropped or reordered — and whose record count
and tag-string count both equal the header-declared table count. -/
theorem read_snft_tags_roundtrip :
    ∀ (s s2 : FontDataStream) (tbl : SnftTable),
      read_snft s = (Except.ok tbl, s2) →
      tbl.list_table_tags = tbl.tables.map (fun e => utf8Lossy e.tag) ∧
      tbl.list_table_tags.length = tbl.header.num_tables ∧
      tbl.tables.length = tbl.header.num_tables := by
  intro s s2 tbl h
  unfold read_snft at h
  rcases h1 : read_snft_header s with ⟨r1, s1⟩
  rw [h1] at h
  rcases r1 with e | hd
  · simp at h
  · simp only at h
    rcases h2 : read_snft_entries hd.num_tables s1 with ⟨r2, s3⟩
    rw [h2] at h
    rcases r2 with e | ts
    · simp at h
    · simp only [Prod.mk.injEq, Except.ok.injEq] at h
      have hlen : ts.length = hd.num_tables := read_snft_entries_len hd.num_tables s1 ts s3 h2
      rw [← h.1]
      unfold SnftTable.list_table_tags
      simp only [List.length_map]
      exact ⟨by trivial, hlen, hlen⟩

/-- Claim C8 witness: a directory with two records carrying the same tag parses
to exactly two tag strings in file order with the duplicate preserved. -/
theorem read_snft_tags_roundtrip_witness :
    (read_snft (FontDataStream.new
      ([0, 1, 0, 0, 0, 2, 0, 16, 0, 0, 0, 0] ++
       ([97, 98, 99, 100] ++ [0, 0, 0, 0] ++ [0, 0, 0, 0] ++ [0, 0, 0, 0]) ++
       ([97, 98, 99, 100] ++ [0, 0, 0, 0] ++ [0, 0, 0, 0] ++ [0, 0, 0, 0])))).1 =
      Except.ok ⟨⟨65536, 2, 16, 0, 0⟩,
        [⟨[97, 98, 99, 100], 0, 0, 0⟩, ⟨[97, 98, 99, 100], 0, 0, 0⟩]⟩ ∧
    SnftTable.list_table_tags ⟨⟨65536, 2, 16, 0, 0⟩,
        [⟨[97, 98, 99, 100], 0, 0, 0⟩, ⟨[97, 98, 99, 100], 0, 0, 0⟩]⟩ =
      [[97, 98, 99, 100], [97, 98, 99, 100]] ∧
    (SnftTable.list_table_tags ⟨⟨65536, 2, 16, 0, 0⟩,
        [⟨[97, 98, 99, 100], 0, 0, 0⟩, ⟨[97, 98, 99, 100], 0, 0, 0⟩]⟩).length = 2 :=
  ⟨by decide,
    by simp [SnftTable.list_table_tags, utf8Lossy, utf8Step],
    (read_snft_tags_roundtrip (FontDataStream.new
      ([0, 1, 0, 0, 0, 2, 0, 16, 0, 0, 0, 0] ++
       ([97, 98, 99, 100] ++ [0, 0, 0, 0] ++ [0, 0, 0, 0] ++ [0, 0, 0, 0]) ++
       ([97, 98, 99, 100] ++ [0, 0, 0, 0] ++ [0, 0, 0, 0] ++ [0, 0, 0, 0])))
      ⟨([0, 1, 0, 0, 0, 2, 0, 16, 0, 0, 0, 0] ++
       ([97, 98, 99, 100] ++ [0, 0, 0, 0] ++ [0, 0, 0, 0] ++ [0, 0, 0, 0]) ++
       ([97, 98, 99, 100] ++ [0, 0, 0, 0] ++ [0, 0, 0, 0] ++ [0, 0, 0, 0])), 44,
        ByteOrder.bigEndian⟩
      ⟨⟨65536, 2, 16, 0, 0⟩,
        [⟨[97, 98, 99, 100], 0, 0, 0⟩, ⟨[97, 98, 99, 100], 0, 0, 0⟩]⟩ (by decide)).2.1⟩

/-! ## Dispatch behavior on TYP1 and SVG signatures -/

/-- A buffer carrying the `typ1` signature followed by an empty (zero
record) directory. -/
def typ1Buffer : List Nat := [0x74, 0x79, 0x70, 0x31, 0, 0, 0, 0, 0, 0, 0, 0]

/-- A buffer carrying the `svg ` signature. -/
def svgBuffer : List Nat := [0x73, 0x76, 0x67, 0x20]

/-- Claim C1: evidence at the failing inputs. A buffer classified as `typ1` is
not rejected: `decode_font_file` dispatches it to the SNFT directory parse
and succeeds, and `decode_into` feeds the parsed directory to the sink and
returns the sink output; a buffer classified as SVG makes `decode_into`
invoke the sink finish operation and return its output. None of these
return the unsupported-format error the claim requires. -/
theorem decode_dispatch_typ1_svg_not_rejected :
    decode_font_type (FontDataStream.new typ1Buffer) = Except.ok FontFileHeader.TYP1 ∧
    (decode_font_file (FontDataStream.new typ1Buffer)).1 =
      Except.ok ⟨⟨0x74797031, 0, 0, 0, 0⟩, []⟩ ∧
    (decode_into fontSink (FontDataStream.new typ1Buffer) Font.new).1 =
      Except.ok ⟨[], Option.none⟩ ∧
    decode_font_type (FontDataStream.new svgBuffer) = Except.ok FontFileHeader.SVG ∧
    (decode_into fontSink (FontDataStream.new svgBuffer) Font.new).1 = Except.ok Font.new :=
  ⟨by decide, by decide, by decide, by decide, by decide⟩

/-! ## Header classification -/

/-- Claim C5 counterexample: on the empty buffer the classifier does not return
a classification at all — it fails with an out-of-bounds error, so it is
not total as the claim states. -/
theorem decode_font_type_fails_on_short_input :
    decode_font_type (FontDataStream.new []) =
      Except.error (Error.io (IoError.outOfBounds 4 0)) := by
  decide

/-- `getD` of a `take` prefix agrees with `getD` of the list below the
prefix length. -/
theorem getD_take_of_lt (l : List Nat) (n i d : Nat) (h : i < n) :
    (l.take n).getD i d = l.getD i d := by
  simp [List.getD_eq_getElem?_getD, List.getElem?_take, h]

/-- Claim C5 (amended): classification is total on every buffer of at least 4
bytes, mapping the big-endian word of the first 4 bytes through the fixed
signature table with every unlisted value sent to the unknown variant; a
buffer shorter than 4 bytes instead yields an out-of-bounds error
(requested 4, available the buffer length). -/
theorem decode_font_type_amended :
    ∀ (s : FontDataStream),
      (4 ≤ s.data.length →
        decode_font_type s = Except.ok (fontFileHeaderFromU32
          (u32FromBeBytes (s.data.getD 0 0) (s.data.getD 1 0)
            (s.data.getD 2 0) (s.data.getD 3 0)))) ∧
      (s.data.length < 4 →
        decode_font_type s = Except.error (Error.io (IoError.outOfBounds 4 s.data.length))) ∧
      fontFileHeaderFromU32 0x00010000 = FontFileHeader.SFNT ∧
      fontFileHeaderFromU32 0x74727565 = FontFileHeader.TRUE ∧
      fontFileHeaderFromU32 0x74797031 = FontFileHeader.TYP1 ∧
      fontFileHeaderFromU32 0x4F54544F = FontFileHeader.OTTO ∧
      fontFileHeaderFromU32 0x774F4646 = FontFileHeader.WOFF ∧
      fontFileHeaderFromU32 0x774F4632 = FontFileHeader.WOF2 ∧
      fontFileHeaderFromU32 0x73766720 = FontFileHeader.SVG ∧
      (∀ v, v ≠ 0x00010000 → v ≠ 0x74727565 → v ≠ 0x74797031 → v ≠ 0x4F54544F →
        v ≠ 0x774F4646 → v ≠ 0x774F4632 → v ≠ 0x73766720 →
        fontFileHeaderFromU32 v = FontFileHeader.Unknown) := by
  intro s
  refine ⟨?_, ?_, rfl, rfl, rfl, rfl, rfl, rfl, rfl, ?_⟩
  · intro h
    unfold decode_font_type
    rw [slice_range_ok s 0 4 (by omega) h]
    simp only [List.drop_zero, Nat.sub_zero]
    rw [getD_take_of_lt _ 4 0 0 (by omega), getD_take_of_lt _ 4 1 0 (by omega),
      getD_take_of_lt _ 4 2 0 (by omega), getD_take_of_lt _ 4 3 0 (by omega)]
  · intro h
    unfold decode_font_type
    rw [slice_range_oob s 0 4 (by omega) h]
    simp only [Nat.sub_zero]
  · intro v h1 h2 h3 h4 h5 h6 h7
    unfold fontFileHeaderFromU32
    split
    · exact absurd rfl h1
    · exact absurd rfl h2
    · exact absurd rfl h3
    · exact absurd rfl h4
    · exact absurd rfl h5
    · exact absurd rfl h6
    · exact absurd rfl h7
    · rfl

/-- Claim C5 (amended) witness: concrete instances of both branches. -/
theorem decode_font_type_amended_witness :
    decode_font_type (FontDataStream.new [0x4F, 0x54, 0x54, 0x4F]) =
      Except.ok FontFileHeader.OTTO ∧
    decode_font_type (FontDataStream.new [0x74]) =
      Except.error (Error.io (IoError.outOfBounds 4 1)) := by
  constructor
  · have h := ((decode_font_type_amended (FontDataStream.new [0x4F, 0x54, 0x54, 0x4F])).1
      (by decide))
    rw [h]
    decide
  · exact (decode_font_type_amended (FontDataStream.new [0x74])).2.1 (by decide)

/-! ## The checksum word sum -/

/-- The 4-byte chunks of a byte list, in order (`slice::chunks(4)`): full
chunks followed by one shorter final chunk when the length is not a
multiple of 4. -/
def chunks4 : List Nat → List (List Nat)
  | [] => []
  | [b0] => [[b0]]
  | [b0, b1] => [[b0, b1]]
  | [b0, b1, b2] => [[b0, b1, b2]]
  | b0 :: b1 :: b2 :: b3 :: rest => [b0, b1, b2, b3] :: chunks4 rest

/-- The checksum as the claim words it: sum of 4-byte big-endian words with
32-bit wraparound where a final short chunk contributes a word whose
missing HIGH-order bytes are zero, i.e. the chunk bytes sit at the
low-order end of the word. -/
def checksum_claim_high_order_zero (data : List Nat) : Nat :=
  (((chunks4 data).map (fun c => c.foldl (fun acc b => acc * 256 + b) 0)).sum) % 4294967296

/-- The checksum with the padding direction the code uses: a final short
chunk contributes a word whose missing LOW-order bytes are zero (the chunk
bytes sit at the high-order end of the word). -/
def checksum_low_order_zero (data : List Nat) : Nat :=
  (((chunks4 data).map be_word).sum) % 4294967296

/-- Claim C3 counterexample: on the one-byte table `[1]` the code computes
`0x01000000` (the lone byte is the HIGH-order byte of its word, the
missing low-order bytes are zero), while the claim formula — missing
high-order bytes zero — gives 1. -/
theorem compute_checksum_pads_low_not_high :
    SnftTableEntry.compute_checksum ⟨[0, 0, 0, 0], 0, 0, 0⟩ [1] = 16777216 ∧
    checksum_claim_high_order_zero [1] = 1 ∧
    SnftTableEntry.compute_checksum ⟨[0, 0, 0, 0], 0, 0, 0⟩ [1] ≠
      checksum_claim_high_order_zero [1] := by
  decide

/-- The checksum accumulator equals one wrapped addition of the plain word
sum, for any already-wrapped starting accumulator. -/
theorem checksum_words_eq_sum (l : List Nat) :
    ∀ (sum : Nat), sum < 4294967296 →
      checksum_words l sum = (sum + ((chunks4 l).map be_word).sum) % 4294967296 := by
  induction l using chunks4.induct with
  | case1 =>
    intro sum hs
    simp [checksum_words, chunks4, Nat.mod_eq_of_lt hs]
  | case2 b0 =>
    intro sum hs
    simp [checksum_words, chunks4]
  | case3 b0 b1 =>
    intro sum hs
    simp [checksum_words, chunks4]
  | case4 b0 b1 b2 =>
    intro sum hs
    simp [checksum_words, chunks4]
  | case5 b0 b1 b2 b3 rest ih =>
    intro sum hs
    simp only [checksum_words, chunks4, List.map_cons, List.sum_cons]
    rw [ih _ (Nat.mod_lt _ (by norm_num))]
    rw [Nat.mod_add_mod, Nat.add_assoc]

/-- Claim C3 (amended): the table checksum is the wraparound sum of the 4-byte
big-endian words of the data, where a final chunk of fewer than 4 bytes
contributes a word whose missing LOW-order bytes are treated as zero; the
same holds for `compute_table_checksum` on every non-`head` tag. -/
theorem compute_checksum_amended :
    ∀ (e : SnftTableEntry) (data : List Nat),
      e.compute_checksum data = checksum_low_order_zero data ∧
      (e.tag ≠ HEAD_TAG → compute_table_checksum e data = checksum_low_order_zero data) := by
  intro e data
  have main := checksum_words_eq_sum data 0 (by norm_num)
  rw [Nat.zero_add] at main
  constructor
  · exact main
  · intro h
    unfold compute_table_checksum
    rw [if_neg h]
    exact main

/-- Claim C3 (amended) witness: a 5-byte table, final chunk `[5]` contributing
`0x05000000`. -/
theorem compute_checksum_amended_witness :
    (⟨[0, 0, 0, 0], 0, 0, 0⟩ : SnftTableEntry).tag ≠ HEAD_TAG ∧
    compute_table_checksum ⟨[0, 0, 0, 0], 0, 0, 0⟩ [1, 2, 3, 4, 5] =
      checksum_low_order_zero [1, 2, 3, 4, 5] ∧
    checksum_low_order_zero [1, 2, 3, 4, 5] = 100795140 :=
  ⟨by decide,
   (compute_checksum_amended ⟨[0, 0, 0, 0], 0, 0, 0⟩ [1, 2, 3, 4, 5]).2 (by decide),
   by decide⟩

/-! ## Lemmas about the checksum validator -/

/-- The slice-extraction loop hands the stream back unchanged: its only
stream access is the shared-reference `slice_range`. -/
theorem slice_tables_snd :
    ∀ (l : List SnftTableEntry) (s : FontDataStream), (slice_tables l s).2 = s := by
  intro l
  induction l with
  | nil => intro s; rfl
  | cons t rest ih =>
    intro s
    unfold slice_tables FontDataStream.slice_rangeM
    rcases h : s.slice_range t.offset ((t.offset + t.length) % 4294967296) with e | sl
    · rfl
    · simp only
      rcases hr : slice_tables rest s with ⟨r2, s2⟩
      have hs2 := ih s
      rw [hr] at hs2
      simp only at hs2
      subst hs2
      rcases r2 with e2 | l2
      · rfl
      · rfl

/-- When every record range fits the buffer without `u32` overflow, the
slice loop returns, in order, each record with the bytes of its
`[offset, offset+length)` range. -/
theorem slice_tables_all_ok :
    ∀ (l : List SnftTableEntry) (s : FontDataStream),
      (∀ t ∈ l, t.offset + t.length ≤ s.data.length ∧ t.offset + t.length < 4294967296) →
      slice_tables l s =
        (Except.ok (l.map fun t => (t, (s.data.drop t.offset).take t.length)), s) := by
  intro l
  induction l with
  | nil => intro s _; rfl
  | cons t rest ih =>
    intro s h
    obtain ⟨hle, hlt⟩ := h t (by simp)
    unfold slice_tables FontDataStream.slice_rangeM
    rw [Nat.mod_eq_of_lt hlt, slice_range_ok s t.offset (t.offset + t.length) (by omega) hle]
    simp only
    rw [ih s (fun p hp => h p (by simp [hp]))]
    simp only [List.map_cons, Nat.add_sub_cancel_left]

/-- A slice failure after an in-bounds prefix is the failure of the
suffix. -/
theorem slice_tables_prefix_err :
    ∀ (pre l2 : List SnftTableEntry) (s : FontDataStream) (e : Error),
      (∀ p ∈ pre, p.offset + p.length ≤ s.data.length ∧ p.offset + p.length < 4294967296) →
      (slice_tables l2 s).1 = Except.error e →
      (slice_tables (pre ++ l2) s).1 = Except.error e := by
  intro pre
  induction pre with
  | nil => intro l2 s e _ h; simpa using h
  | cons p rest ih =>
    intro l2 s e hpre h
    obtain ⟨hle, hlt⟩ := hpre p (by simp)
    rw [List.cons_append]
    unfold slice_tables FontDataStream.slice_rangeM
    rw [Nat.mod_eq_of_lt hlt, slice_range_ok s p.offset (p.offset + p.length) (by omega) hle]
    simp only
    rcases hr : slice_tables (rest ++ l2) s with ⟨r2, s2⟩
    have hih := ih l2 s e (fun q hq => hpre q (by simp [hq])) h
    rw [hr] at hih
    simp only at hih
    subst hih
    rfl

/-- A validation run is the slice phase, then — only if every slice
succeeded — the comparison phase. -/
theorem validate_fst_err (tables : List SnftTableEntry) (s : FontDataStream) (e : Error)
    (h : (slice_tables tables s).1 = Except.error e) :
    (validate_snft_tables tables s).1 = Except.error e := by
  unfold validate_snft_tables
  rcases hs : slice_tables tables s with ⟨r, s1⟩
  rw [hs] at h
  simp only at h
  subst h
  rfl

/-- A validation run whose slice phase succeeds reduces to the comparison
loop. -/
theorem validate_fst_ok (tables : List SnftTableEntry) (s : FontDataStream)
    (slices : List (SnftTableEntry × List Nat))
    (h : slice_tables tables s = (Except.ok slices, s)) :
    (validate_snft_tables tables s).1 = check_slices slices := by
  unfold validate_snft_tables
  rw [h]

/-- The comparison loop succeeds when every recomputed checksum matches. -/
theorem check_slices_all_ok :
    ∀ (l : List (SnftTableEntry × List Nat)),
      (∀ p ∈ l, compute_table_checksum p.1 p.2 = p.1.checksum) →
      check_slices l = Except.ok () := by
  intro l
  induction l with
  | nil => intro _; rfl
  | cons p rest ih =>
    intro h
    rcases p with ⟨t, d⟩
    unfold check_slices
    rw [if_neg (by simpa using (h (t, d) (by simp)))]
    exact ih (fun q hq => h q (by simp [hq]))

/-- The comparison loop reports the first mismatch in list order, with the
record tag, offset, stored checksum and computed value. -/
theorem check_slices_first_mismatch :
    ∀ (pre : List (SnftTableEntry × List Nat)) (t : SnftTableEntry) (d : List Nat)
      (rest : List (SnftTableEntry × List Nat)),
      (∀ p ∈ pre, compute_table_checksum p.1 p.2 = p.1.checksum) →
      compute_table_checksum t d ≠ t.checksum →
      check_slices (pre ++ (t, d) :: rest) =
        Except.error (Error.io (IoError.checksumMismatch t.tag t.offset t.checksum
          (compute_table_checksum t d))) := by
  intro pre
  induction pre with
  | nil =>
    intro t d rest _ ht
    rw [List.nil_append]
    unfold check_slices
    rw [if_pos ht]
  | cons p rest2 ih =>
    intro t d rest hpre ht
    rcases p with ⟨q, dq⟩
    rw [List.cons_append]
    unfold check_slices
    rw [if_neg (by simpa using (hpre (q, dq) (by simp)))]
    exact ih t d rest (fun r hr => hpre r (by simp [hr])) ht

/-! ## Range checking in the validator -/

/-- Claim C2 counterexample: a record with `offset = 4294967295` and
`length = 2` has `offset + length` far beyond the 4-byte buffer, yet
validation reports the invalid-offset error, not an out-of-bounds error:
the `u32` end-of-range computation wraps to 1, which precedes the start. -/
theorem validate_overflow_not_out_of_bounds :
    (4294967295 : Nat) + 2 > (FontDataStream.new [0, 0, 0, 0]).data.length ∧
    (validate_snft_tables [⟨[97, 98, 99, 100], 0, 4294967295, 2⟩]
        (FontDataStream.new [0, 0, 0, 0])).1 =
      Except.error (Error.io (IoError.invalidOffset 4294967295)) := by
  constructor
  · decide
  · rfl

/-- Claim C2 (amended): with an in-bounds prefix before it, a record whose
`offset + length` exceeds the buffer length is reported before any
checksum comparison and aborts validation — never clamped, never skipped.
When the sum does not overflow `u32` the error is out-of-bounds with the
requested byte count (the record length) and the bytes available at the
offset; when the sum overflows `u32`, the wrapped range end precedes the
start and the error is invalid-offset at the record offset instead. -/
theorem validate_range_check_amended :
    ∀ (s : FontDataStream) (pre : List SnftTableEntry) (t : SnftTableEntry)
      (rest : List SnftTableEntry),
      (∀ p ∈ pre, p.offset + p.length ≤ s.data.length ∧ p.offset + p.length < 4294967296) →
      (s.data.length < t.offset + t.length → t.offset + t.length < 4294967296 →
        (validate_snft_tables (pre ++ t :: rest) s).1 =
          Except.error (Error.io (IoError.outOfBounds t.length
            (s.data.length - t.offset)))) ∧
      (4294967296 ≤ t.offset + t.length → t.offset < 4294967296 → t.length < 4294967296 →
        (validate_snft_tables (pre ++ t :: rest) s).1 =
          Except.error (Error.io (IoError.invalidOffset t.offset))) := by
  intro s pre t rest hpre
  constructor
  · intro hlen hlt
    apply validate_fst_err
    apply slice_tables_prefix_err pre (t :: rest) s _ hpre
    unfold slice_tables FontDataStream.slice_rangeM
    rw [Nat.mod_eq_of_lt hlt,
      slice_range_oob s t.offset (t.offset + t.length) (by omega) hlen]
    simp only
    rw [Nat.add_sub_cancel_left]
  · intro hov hofflt hlenlt
    apply validate_fst_err
    apply slice_tables_prefix_err pre (t :: rest) s _ hpre
    unfold slice_tables FontDataStream.slice_rangeM
    have hmod : (t.offset + t.length) % 4294967296 = t.offset + t.length - 4294967296 := by
      omega
    rw [hmod, slice_range_inverted s t.offset (t.offset + t.length - 4294967296) (by omega)]

/-- Claim C2 (amended) witness: both branches at concrete inputs — behind one
valid in-bounds record, a record reaching past a 4-byte buffer yields
out-of-bounds requested 99, available 2; a record whose `u32` range end
wraps yields invalid-offset. -/
theorem validate_range_check_amended_witness :
    (validate_snft_tables ([⟨[119, 120, 121, 122], 5, 0, 4⟩] ++
        ⟨[97, 98, 99, 100], 0, 2, 99⟩ :: []) (FontDataStream.new [0, 0, 0, 5])).1 =
      Except.error (Error.io (IoError.outOfBounds 99 2)) ∧
    (validate_snft_tables ([⟨[119, 120, 121, 122], 5, 0, 4⟩] ++
        ⟨[97, 98, 99, 100], 0, 4294967295, 2⟩ :: []) (FontDataStream.new [0, 0, 0, 5])).1 =
      Except.error (Error.io (IoError.invalidOffset 4294967295)) :=
  ⟨(validate_range_check_amended (FontDataStream.new [0, 0, 0, 5])
      [⟨[119, 120, 121, 122], 5, 0, 4⟩] ⟨[97, 98, 99, 100], 0, 2, 99⟩ []
      (by decide)).1 (by decide) (by decide),
   (validate_range_check_amended (FontDataStream.new [0, 0, 0, 5])
      [⟨[119, 120, 121, 122], 5, 0, 4⟩] ⟨[97, 98, 99, 100], 0, 4294967295, 2⟩ []
      (by decide)).2 (by decide) (by decide) (by decide)⟩

/-! ## Fail-fast mismatch reporting and the validator frame -/

/-- Claim C7 counterexample: on a buffer of length 2^32, a record with
offset 2^31 and length 2^31 has its range [2^31, 2^32) entirely within the
buffer, yet validation returns neither success nor a checksum mismatch:
the `u32` range-end sum wraps to 0, which precedes the start, and the
invalid-offset error aborts validation before any checksum comparison. -/
theorem validate_inbounds_wrap_not_mismatch :
    (2147483648 : Nat) + 2147483648 ≤
      (FontDataStream.new (List.replicate 4294967296 0)).data.length ∧
    (validate_snft_tables [⟨[97, 98, 99, 100], 0, 2147483648, 2147483648⟩]
        (FontDataStream.new (List.replicate 4294967296 0))).1 =
      Except.error (Error.io (IoError.invalidOffset 2147483648)) := by
  constructor
  · unfold FontDataStream.new
    simp only [List.length_replicate]
    norm_num
  · apply validate_fst_err
    unfold slice_tables FontDataStream.slice_rangeM
    simp only
    rw [show ((2147483648 : Nat) + 2147483648) % 4294967296 = 0 from by norm_num]
    rw [slice_range_inverted _ 2147483648 0 (by norm_num)]

/-- Claim C7 (amended): when every record range lies within the buffer and
no record's `offset + length` overflows `u32`, validation succeeds if
every recomputed checksum matches its stored value, and otherwise returns
the checksum-mismatch error of the first differing record in directory
order — carrying that record tag, offset, stored (expected) checksum and
computed value — and stops. -/
theorem validate_first_mismatch :
    ∀ (tables : List SnftTableEntry) (s : FontDataStream),
      (∀ t ∈ tables, t.offset + t.length ≤ s.data.length ∧
        t.offset + t.length < 4294967296) →
      ((∀ t ∈ tables,
          compute_table_checksum t ((s.data.drop t.offset).take t.length) = t.checksum) →
        (validate_snft_tables tables s).1 = Except.ok ()) ∧
      (∀ (pre : List SnftTableEntry) (t : SnftTableEntry) (rest : List SnftTableEntry),
        tables = pre ++ t :: rest →
        (∀ p ∈ pre,
          compute_table_checksum p ((s.data.drop p.offset).take p.length) = p.checksum) →
        compute_table_checksum t ((s.data.drop t.offset).take t.length) ≠ t.checksum →
        (validate_snft_tables tables s).1 =
          Except.error (Error.io (IoError.checksumMismatch t.tag t.offset t.checksum
            (compute_table_checksum t ((s.data.drop t.offset).take t.length))))) := by
  intro tables s hb
  have hslice := slice_tables_all_ok tables s hb
  constructor
  · intro hall
    rw [validate_fst_ok tables s _ hslice]
    apply check_slices_all_ok
    intro p hp
    obtain ⟨t, ht, hpt⟩ := List.mem_map.mp hp
    rw [← hpt]
    exact hall t ht
  · intro pre t rest heq hpre ht
    rw [validate_fst_ok tables s _ hslice]
    subst heq
    rw [List.map_append, List.map_cons]
    exact check_slices_first_mismatch _ t _ _
      (by
        intro p hp
        obtain ⟨q, hq, hpq⟩ := List.mem_map.mp hp
        rw [← hpq]
        exact hpre q hq)
      ht

/-- Claim C7 witness: a single matching record validates; appending a record
with a wrong stored checksum yields the mismatch error carrying its tag,
offset, stored value 7 and computed value 5. -/
theorem validate_first_mismatch_witness :
    (validate_snft_tables [⟨[119, 120, 121, 122], 5, 0, 4⟩]
        (FontDataStream.new [0, 0, 0, 5])).1 = Except.ok () ∧
    (validate_snft_tables ([⟨[119, 120, 121, 122], 5, 0, 4⟩] ++
        ⟨[97, 98, 99, 100], 7, 0, 4⟩ :: []) (FontDataStream.new [0, 0, 0, 5])).1 =
      Except.error (Error.io (IoError.checksumMismatch [97, 98, 99, 100] 0 7 5)) :=
  ⟨(validate_first_mismatch [⟨[119, 120, 121, 122], 5, 0, 4⟩]
      (FontDataStream.new [0, 0, 0, 5]) (by decide)).1 (by decide),
   (validate_first_mismatch ([⟨[119, 120, 121, 122], 5, 0, 4⟩] ++
        ⟨[97, 98, 99, 100], 7, 0, 4⟩ :: []) (FontDataStream.new [0, 0, 0, 5])
      (by decide)).2 [⟨[119, 120, 121, 122], 5, 0, 4⟩] ⟨[97, 98, 99, 100], 7, 0, 4⟩ []
      rfl (by decide) (by decide)⟩

/-- The validator hands the stream back exactly as it received it. -/
theorem validate_snd (tables : List SnftTableEntry) (s : FontDataStream) :
    (validate_snft_tables tables s).2 = s := by
  unfold validate_snft_tables
  rcases hs : slice_tables tables s with ⟨r, s1⟩
  have h := slice_tables_snd tables s
  rw [hs] at h
  simp only at h
  subst h
  rcases r with e | sl
  · rfl
  · rfl

/-- Claim C10: checksum validation — `validate_snft_tables` and the
`SnftTable::validate_checksums` wrapper — returns the stream it was given,
so its position, endianness and underlying buffer are unchanged whether it
succeeds or fails; it consumes only a copy of the record list, which it
never returns modified. -/
theorem validate_preserves_stream :
    ∀ (t : SnftTable) (tables : List SnftTableEntry) (s : FontDataStream),
      (validate_snft_tables tables s).2 = s ∧
      (SnftTable.validate_checksums t s).2 = s ∧
      ((SnftTable.validate_checksums t s).2).position = s.position ∧
      ((SnftTable.validate_checksums t s).2).endianness = s.endianness ∧
      ((SnftTable.validate_checksums t s).2).data = s.data := by
  intro t tables s
  have h2 : (SnftTable.validate_checksums t s).2 = s := validate_snd t.tables s
  exact ⟨validate_snd tables s, h2, by rw [h2], by rw [h2], by rw [h2]⟩

/-! ## The `head` checksum-adjustment zeroing -/

/-- Replace the bytes at absolute indices 8..12 by zero, walking the list
from starting index `i`. -/
def zero_adjust_from : Nat → List Nat → List Nat
  | _, [] => []
  | i, b :: rest => (if 8 ≤ i ∧ i < 12 then 0 else b) :: zero_adjust_from (i + 1) rest

/-- The data of a `head` table with the 4 bytes of its checksum-adjustment
field (its own byte offsets 8..12) replaced by zero. -/
def zero_checksum_adjustment (data : List Nat) : List Nat :=
  zero_adjust_from 0 data

theorem zero_adjust_from_length : ∀ (i : Nat) (l : List Nat),
    (zero_adjust_from i l).length = l.length := by
  intro i l
  induction l generalizing i with
  | nil => rfl
  | cons b rest ih => simp [zero_adjust_from, ih]

theorem zero_adjust_from_getD : ∀ (l : List Nat) (i j : Nat),
    (zero_adjust_from i l).getD j 0 =
      if j < l.length then (if 8 ≤ i + j ∧ i + j < 12 then 0 else l.getD j 0) else 0 := by
  intro l
  induction l with
  | nil =>
    intro i j
    simp [zero_adjust_from]
  | cons b rest ih =>
    intro i j
    cases j with
    | zero =>
      simp [zero_adjust_from]
    | succ j =>
      simp only [zero_adjust_from, List.getD_cons_succ, List.length_cons]
      rw [ih (i + 1) j]
      have h1 : i + 1 + j = i + (j + 1) := by omega
      rw [h1]
      simp [Nat.succ_lt_succ_iff]

/-- Reading the zeroed data at any index is exactly `head_byte`. -/
theorem zero_checksum_adjustment_getD (data : List Nat) (j : Nat) :
    (zero_checksum_adjustment data).getD j 0 = head_byte data j := by
  unfold zero_checksum_adjustment head_byte
  rw [zero_adjust_from_getD data 0 j]
  simp [Nat.zero_add]

theorem zero_checksum_adjustment_length (data : List Nat) :
    (zero_checksum_adjustment data).length = data.length :=
  zero_adjust_from_length 0 data

/-- One unrolling of the chunk fold, for a nonempty list. -/
theorem checksum_words_step : ∀ (l : List Nat) (sum : Nat), l ≠ [] →
    checksum_words l sum =
      checksum_words (l.drop 4) ((sum + be_word (l.take 4)) % 4294967296) := by
  intro l sum h
  rcases l with _ | ⟨b0, _ | ⟨b1, _ | ⟨b2, _ | ⟨b3, rest⟩⟩⟩⟩
  · contradiction
  · rfl
  · rfl
  · rfl
  · rfl

/-- `getD` through a `drop`. -/
theorem getD_drop (l : List Nat) (i j : Nat) :
    (l.drop i).getD j 0 = l.getD (i + j) 0 := by
  simp [List.getD_eq_getElem?_getD, List.getElem?_drop]

/-- The word the chunk fold forms at offset `i` of a list, as the 4 `getD`
reads there. -/
theorem be_word_take_drop (zd : List Nat) (i : Nat) :
    be_word ((zd.drop i).take 4) =
      u32FromBeBytes (zd.getD i 0) (zd.getD (i + 1) 0)
        (zd.getD (i + 2) 0) (zd.getD (i + 3) 0) := by
  unfold be_word
  rw [getD_take_of_lt _ 4 0 0 (by omega), getD_take_of_lt _ 4 1 0 (by omega),
    getD_take_of_lt _ 4 2 0 (by omega), getD_take_of_lt _ 4 3 0 (by omega)]
  rw [getD_drop, getD_drop, getD_drop, getD_drop]
  simp [Nat.add_zero]

/-- The `head` summing loop equals the plain chunk fold over the zeroed
data, from any aligned starting index. -/
theorem head_checksum_eq_zeroed_aux (data : List Nat) :
    ∀ (k i sum : Nat), data.length - i ≤ k →
      head_checksum_words data i sum =
        checksum_words (List.drop i (zero_checksum_adjustment data)) sum := by
  intro k
  induction k with
  | zero =>
    intro i sum h
    rw [head_checksum_words, if_neg (by omega)]
    rw [List.drop_eq_nil_of_le (by rw [zero_checksum_adjustment_length]; omega)]
    rfl
  | succ k ih =>
    intro i sum h
    by_cases hi : i < data.length
    · rw [head_checksum_words, if_pos hi]
      have hne : List.drop i (zero_checksum_adjustment data) ≠ [] := by
        apply List.ne_nil_of_length_pos
        rw [List.length_drop, zero_checksum_adjustment_length]
        omega
      rw [checksum_words_step _ _ hne, List.drop_drop, be_word_take_drop,
        zero_checksum_adjustment_getD, zero_checksum_adjustment_getD,
        zero_checksum_adjustment_getD, zero_checksum_adjustment_getD]
      unfold head_word
      exact ih (i + 4) _ (by omega)
    · rw [head_checksum_words, if_neg hi]
      rw [List.drop_eq_nil_of_le (by rw [zero_checksum_adjustment_length]; omega)]
      rfl

/-- Claim C4: for a record tagged `head`, the recomputed checksum is the plain
chunk-fold checksum of the table data with its own bytes 8..12 replaced by
zero — whatever those bytes hold — and a buffer whose `head` record stores
exactly that zeroed checksum validates successfully. -/
theorem head_table_checksum_zeroes_adjustment :
    (∀ (e : SnftTableEntry) (data : List Nat), e.tag = HEAD_TAG →
      compute_table_checksum e data = checksum_words (zero_checksum_adjustment data) 0) ∧
    (∀ (e : SnftTableEntry) (s : FontDataStream),
      e.tag = HEAD_TAG →
      e.offset + e.length ≤ s.data.length →
      e.offset + e.length < 4294967296 →
      e.checksum = checksum_words
        (zero_checksum_adjustment ((s.data.drop e.offset).take e.length)) 0 →
      (validate_snft_tables [e] s).1 = Except.ok ()) := by
  have hmain : ∀ (e : SnftTableEntry) (data : List Nat), e.tag = HEAD_TAG →
      compute_table_checksum e data = checksum_words (zero_checksum_adjustment data) 0 := by
    intro e data h
    unfold compute_table_checksum
    rw [if_pos h]
    rw [head_checksum_eq_zeroed_aux data data.length 0 0 (by omega)]
    rw [List.drop_zero]
  constructor
  · exact hmain
  · intro e s htag hle hlt hcs
    have hslice := slice_tables_all_ok [e] s
      (by
        intro t ht
        rw [List.mem_singleton] at ht
        subst ht
        exact ⟨hle, hlt⟩)
    rw [validate_fst_ok [e] s _ hslice]
    apply check_slices_all_ok
    intro p hp
    simp only [List.map_cons, List.map_nil, List.mem_singleton] at hp
    subst hp
    simp only
    rw [hmain e _ htag]
    exact hcs.symm

/-- Claim C4 witness: a 16-byte `head` table whose bytes 8..12 are `1 2 3 4` —
so a verbatim sum would be nonzero and mismatch the stored checksum 0 —
validates successfully because those bytes count as zero. -/
theorem head_table_checksum_zeroes_adjustment_witness :
    checksum_words [0, 0, 0, 0, 0, 0, 0, 0, 1, 2, 3, 4, 0, 0, 0, 0] 0 ≠ 0 ∧
    (validate_snft_tables [⟨HEAD_TAG, 0, 0, 16⟩]
        (FontDataStream.new [0, 0, 0, 0, 0, 0, 0, 0, 1, 2, 3, 4, 0, 0, 0, 0])).1 =
      Except.ok () :=
  ⟨by decide,
   head_table_checksum_zeroes_adjustment.2 ⟨HEAD_TAG, 0, 0, 16⟩
     (FontDataStream.new [0, 0, 0, 0, 0, 0, 0, 0, 1, 2, 3, 4, 0, 0, 0, 0])
     (by decide) (by decide) (by decide) (by decide)⟩

/-! ## The stream position invariant -/

/-- Claim C9: starting from a position within `[0, buffer length]`, every
position-changing stream operation — the sequential reads (unsigned and
signed), `read_bytes`, `read_tag`, `skip`, `seek` and `reset` — leaves the
position within `[0, buffer length]` again, and out-of-range `seek` and
`skip` targets saturate at the buffer length instead of erroring. The
peeks and the absolute reads take the stream by shared reference, so in
the embedding they return no stream at all and cannot move the position. -/
theorem stream_position_invariant :
    ∀ (s : FontDataStream) (n k : Nat),
      s.position ≤ s.data.length →
      ((s.read_u8).2.position ≤ (s.read_u8).2.data.length ∧
       (s.read_u16).2.position ≤ (s.read_u16).2.data.length ∧
       (s.read_u32).2.position ≤ (s.read_u32).2.data.length ∧
       (s.read_i8).2.position ≤ (s.read_i8).2.data.length ∧
       (s.read_i16).2.position ≤ (s.read_i16).2.data.length ∧
       (s.read_i32).2.position ≤ (s.read_i32).2.data.length ∧
       (s.read_bytes n).2.position ≤ (s.read_bytes n).2.data.length ∧
       (s.read_tag).2.position ≤ (s.read_tag).2.data.length ∧
       (s.skip n).position ≤ (s.skip n).data.length ∧
       (s.seek k).position ≤ (s.seek k).data.length ∧
       (s.reset).position ≤ (s.reset).data.length) ∧
      (s.data.length < k → (s.seek k).position = s.data.length) ∧
      (s.data.length < s.position + n → (s.skip n).position = s.data.length) := by
  intro s n k h
  refine ⟨⟨?_, ?_, ?_, ?_, ?_, ?_, ?_, ?_, ?_, ?_, ?_⟩, ?_, ?_⟩ <;>
    simp only [FontDataStream.read_i8, FontDataStream.read_i16, FontDataStream.read_i32,
      FontDataStream.read_tag, FontDataStream.read_u8, FontDataStream.read_u16,
      FontDataStream.read_u32, FontDataStream.read_bytes, FontDataStream.skip,
      FontDataStream.seek, FontDataStream.reset, FontDataStream.available] <;>
    (try split_ifs) <;>
    simp <;>
    omega

/-- Claim C9 witness: the invariant at a concrete 3-byte stream with an
oversized read length and seek target. -/
theorem stream_position_invariant_witness :
    ((FontDataStream.new [0, 1, 2]).seek 7).position = 3 ∧
    ((FontDataStream.new [0, 1, 2]).skip 5).position = 3 ∧
    ((FontDataStream.new [0, 1, 2]).read_bytes 5).2.position ≤ 3 :=
  ⟨(stream_position_invariant (FontDataStream.new [0, 1, 2]) 5 7 (by decide)).2.1
      (by decide),
   (stream_position_invariant (FontDataStream.new [0, 1, 2]) 5 7 (by decide)).2.2
      (by decide),
   (stream_position_invariant (FontDataStream.new [0, 1, 2]) 5 7 (by decide)).1.2.2.2.2.2.2.1⟩

end Aurora
